import Mathlib

/-!
Verification development for the Malabar Finance billing-cycle engine
(`src/types/index.ts`, functions `analyzeBillingCyclePattern`,
`projectFutureCycles`, `assignTransactionToCycle`, `adjustForMonthEnd`,
`checkStatementDayConsistency`, `calculateMode`, `calculateMedian`,
`calculateVariance`, `calculateCycleConfidence`).

Modelling conventions:
* JavaScript `Date` values are modelled at day resolution by a
  `Date` structure of year / month / day fields (the engine normalizes
  every produced date with `startOfDay`, so the time-of-day component is
  irrelevant).  `getTime()` ordering and `differenceInDays` are modelled
  through `toDayNumber`, a strictly monotone day count for valid dates.
* JavaScript numbers are modelled by `ℚ` (exact rational arithmetic).
* `date-fns` helpers are modelled as: `addDays` (signed day shift),
  `addMonths _ 1` (`addMonths1`, clamping the day to the target month's
  length), `setDate` (`setDateD`, for in-range day values, the only way
  the source calls it), `endOfMonth(..).getDate()` (`daysInMonth`),
  `differenceInDays` (day-number difference), `startOfDay` (identity
  at day resolution).
-/

/-- Calendar date at day resolution (the engine only works with
start-of-day dates). -/
structure Date where
  year : ℕ
  month : ℕ
  day : ℕ
deriving DecidableEq, Repr

/-- Gregorian leap-year rule. -/
def IsLeapYear (y : ℕ) : Prop :=
  y % 4 = 0 ∧ (y % 100 ≠ 0 ∨ y % 400 = 0)

instance (y : ℕ) : Decidable (IsLeapYear y) := by
  unfold IsLeapYear; infer_instance

/-- Number of days in month `m` of year `y` (months are 1-based). -/
def daysInMonth (y m : ℕ) : ℕ :=
  if m = 2 then (if IsLeapYear y then 29 else 28)
  else if m = 4 ∨ m = 6 ∨ m = 9 ∨ m = 11 then 30
  else 31

/-- Days of year `y` that lie strictly before month `m`. -/
def daysBeforeMonth (y : ℕ) : ℕ → ℕ
  | 0 => 0
  | m + 1 => if m = 0 then 0 else daysBeforeMonth y m + daysInMonth y m

/-- Number of leap years in `[1, y]`. -/
def leapCount (y : ℕ) : ℕ := y / 4 - y / 100 + y / 400

/-- Linear day count of a date (models the ordering and day differences
of JavaScript `Date.getTime()` for start-of-day dates). -/
def toDayNumber (d : Date) : ℕ :=
  365 * (d.year - 1) + leapCount (d.year - 1) + daysBeforeMonth d.year d.month + d.day

/-- A Gregorian calendar date that a JavaScript `Date` can hold. -/
def ValidDate (d : Date) : Prop :=
  1 ≤ d.year ∧ 1 ≤ d.month ∧ d.month ≤ 12 ∧ 1 ≤ d.day ∧ d.day ≤ daysInMonth d.year d.month

instance (d : Date) : Decidable (ValidDate d) := by
  unfold ValidDate; infer_instance

/-- Successor day in the calendar. -/
def addOneDay (d : Date) : Date :=
  if d.day < daysInMonth d.year d.month then ⟨d.year, d.month, d.day + 1⟩
  else if d.month < 12 then ⟨d.year, d.month + 1, 1⟩
  else ⟨d.year + 1, 1, 1⟩

/-- Predecessor day in the calendar. -/
def subOneDay (d : Date) : Date :=
  if 1 < d.day then ⟨d.year, d.month, d.day - 1⟩
  else if 1 < d.month then ⟨d.year, d.month - 1, daysInMonth d.year (d.month - 1)⟩
  else ⟨d.year - 1, 12, 31⟩

/-- Shift a date forward by `n` days. -/
def addDaysNat (d : Date) : ℕ → Date
  | 0 => d
  | n + 1 => addOneDay (addDaysNat d n)

/-- Shift a date backward by `n` days. -/
def subDaysNat (d : Date) : ℕ → Date
  | 0 => d
  | n + 1 => subOneDay (subDaysNat d n)

/-- JavaScript `toInteger` truncation (toward zero) used by `date-fns`
on its day/amount arguments. -/
def jsToInteger (q : ℚ) : ℤ := if 0 ≤ q then ⌊q⌋ else ⌈q⌉

/-- Model of `date-fns` `addDays` (signed day shift). -/
def addDays (d : Date) (n : ℤ) : Date :=
  if 0 ≤ n then addDaysNat d n.toNat else subDaysNat d (-n).toNat

/-- Model of `date-fns` `addMonths(date, 1)`: advance one calendar month,
clamping the day-of-month to the length of the target month. -/
def addMonths1 (d : Date) : Date :=
  if d.month < 12 then ⟨d.year, d.month + 1, min d.day (daysInMonth d.year (d.month + 1))⟩
  else ⟨d.year + 1, 1, min d.day 31⟩

/-- Model of `date-fns` `setDate` for in-range day values (the source
only calls it with `1 ≤ n ≤ daysInMonth`, where it just replaces the
day-of-month). -/
def setDateD (d : Date) (n : ℤ) : Date := ⟨d.year, d.month, n.toNat⟩

/-- Timestamp order on dates (models `getTime()` comparison). -/
def dateLe (a b : Date) : Prop := toDayNumber a ≤ toDayNumber b

instance (a b : Date) : Decidable (dateLe a b) := Nat.decLe _ _

/-- Strict timestamp order on dates. -/
def dateLt (a b : Date) : Prop := toDayNumber a < toDayNumber b

instance (a b : Date) : Decidable (dateLt a b) := Nat.decLt _ _

/-- Model of `date-fns` `differenceInDays` for start-of-day dates. -/
def differenceInDays (a b : Date) : ℤ := (toDayNumber a : ℤ) - (toDayNumber b : ℤ)

-- ==================== DATA MODEL ====================

/-- One observed billing cycle (`HistoricalCycle` in the source). -/
structure HistoricalCycle where
  statementDate : Date
  dueDate : Date
  statementBalance : Option ℚ
deriving DecidableEq, Repr

/-- Detected billing pattern (`BillingCyclePattern` in the source). -/
structure BillingCyclePattern where
  typicalCycleLength : ℚ
  statementDayOfMonth : Option ℤ
  dueDateOffset : ℚ
  confidence : ℚ
deriving DecidableEq, Repr

/-- One projected future cycle (`BillingCycleProjection` in the source). -/
structure BillingCycleProjection where
  cycleStartDate : Date
  cycleEndDate : Date
  paymentDueDate : Date
  isProjected : Bool
  confidence : ℚ
deriving DecidableEq, Repr

/-- Quality classification of a pattern analysis. -/
inductive Quality where
  | high
  | medium
  | low
deriving DecidableEq, Repr

/-- Result of `analyzeBillingCyclePattern`. -/
structure PatternAnalysisResult where
  pattern : BillingCyclePattern
  quality : Quality
  insights : List String
deriving DecidableEq, Repr

-- ==================== STATISTICAL UTILITIES ====================

/-- Largest `toNat` of any element (0 on the empty list); bounds the
array-index keys of the frequency table. -/
def natMaxOf (xs : List ℤ) : ℕ := xs.foldr (fun x m => max x.toNat m) 0

/-- Distinct values of a list in order of first occurrence (insertion
order of the frequency table's keys). -/
def firstDedup (xs : List ℤ) : List ℤ :=
  xs.foldl (fun acc x => if x ∈ acc then acc else acc ++ [x]) []

/-- The enumeration order of the source's frequency table
(`Object.entries` over a `Record<number, number>`): integer array-index
keys ascending first, then the remaining (negative) keys in insertion
order.  Every value that actually flows into `calculateMode` here is a
day difference of sorted dates or a day-of-month, so the ascending
branch is the operative one. -/
def modeKeys (xs : List ℤ) : List ℤ :=
  (((List.range (natMaxOf xs + 1)).map Int.ofNat).filter (fun k => decide (k ∈ xs)))
    ++ firstDedup (xs.filter (fun x => decide (x < 0)))

/-- One step of the frequency-table walk: replace the candidate only on a
strictly greater count (`if (freq > maxFreq)`). -/
def modeStep (xs : List ℤ) (acc : ℕ × Option ℤ) (k : ℤ) : ℕ × Option ℤ :=
  if acc.1 < xs.count k then (xs.count k, some k) else acc

/-- Model of `calculateMode`: walk the frequency table in enumeration
order with `modeStep`; `null` only for an empty input. -/
def calculateMode (xs : List ℤ) : Option ℤ :=
  ((modeKeys xs).foldl (modeStep xs) ((0 : ℕ), (none : Option ℤ))).2

/-- Ascending sort of integers (models `[...].sort((a, b) => a - b)`). -/
def sortInts (l : List ℤ) : List ℤ := List.insertionSort (fun a b => a ≤ b) l

/-- Model of `calculateMedian`: middle element of the ascending sort, or
the average of the two middle elements for even length; 0 on the empty
list. -/
def calculateMedian (xs : List ℤ) : ℚ :=
  if xs = [] then 0
  else
    let sorted := sortInts xs
    let mid := xs.length / 2
    if xs.length % 2 = 0 then
      (((sorted.getD (mid - 1) 0 : ℤ) : ℚ) + ((sorted.getD mid 0 : ℤ) : ℚ)) / 2
    else ((sorted.getD mid 0 : ℤ) : ℚ)

/-- Model of `calculateVariance`: population variance (divide by N), 0 on
the empty list. -/
def calculateVariance (xs : List ℚ) : ℚ :=
  if xs = [] then 0
  else
    let n : ℚ := xs.length
    let mean := xs.sum / n
    ((xs.map (fun x => (x - mean) ^ 2)).sum) / n

/-- Smallest element of a nonempty integer list (`Math.min(...xs)`). -/
def listMinZ : List ℤ → ℤ
  | [] => 0
  | x :: xs => xs.foldr min x

/-- Largest element of a nonempty integer list (`Math.max(...xs)`). -/
def listMaxZ : List ℤ → ℤ
  | [] => 0
  | x :: xs => xs.foldr max x

-- ==================== PATTERN ANALYZER ====================

/-- Stable ascending sort of cycles by statement date (models
`[...historicalCycles].sort((a, b) => a.statementDate.getTime() - b.statementDate.getTime())`). -/
def sortCycles (l : List HistoricalCycle) : List HistoricalCycle :=
  List.insertionSort (fun a b => toDayNumber a.statementDate ≤ toDayNumber b.statementDate) l

/-- Day differences between consecutive dates of a list. -/
def consecutiveDiffs : List Date → List ℤ
  | a :: b :: rest => differenceInDays b a :: consecutiveDiffs (b :: rest)
  | _ => []

/-- The sorted history used by the analyzer. -/
def sortedCyclesOf (h : List HistoricalCycle) : List HistoricalCycle := sortCycles h

/-- Cycle lengths: day differences between consecutive statement dates of
the sorted history. -/
def cycleLengthsOf (h : List HistoricalCycle) : List ℤ :=
  consecutiveDiffs ((sortedCyclesOf h).map (fun c => c.statementDate))

/-- Typical cycle length: `calculateMode(cycleLengths) || calculateMedian(cycleLengths)`
(JavaScript `||` falls through both on `null` and on `0`). -/
def typicalCycleLengthOf (h : List HistoricalCycle) : ℚ :=
  match calculateMode (cycleLengthsOf h) with
  | some m => if m = 0 then calculateMedian (cycleLengthsOf h) else (m : ℚ)
  | none => calculateMedian (cycleLengthsOf h)

/-- Consistency of cycle lengths: population variance below 4. -/
def isConsistentLengthOf (h : List HistoricalCycle) : Bool :=
  decide (calculateVariance ((cycleLengthsOf h).map (fun z => (z : ℚ))) < 4)

/-- Days of month of the sorted statement dates. -/
def statementDaysOf (h : List HistoricalCycle) : List ℤ :=
  (sortedCyclesOf h).map (fun c => (c.statementDate.day : ℤ))

/-- Mode of the statement days of month. -/
def mostCommonDayOf (h : List HistoricalCycle) : Option ℤ :=
  calculateMode (statementDaysOf h)

/-- Model of `checkStatementDayConsistency`: all days equal, or a spread
of at most 3 reaching at least day 28 (month-end clipping). -/
def checkStatementDayConsistency (cycles : List HistoricalCycle) : Bool :=
  let days := cycles.map (fun c => (c.statementDate.day : ℤ))
  if days.dedup.length = 1 then true
  else
    let maxDay := listMaxZ days
    let minDay := listMinZ days
    decide (maxDay - minDay ≤ 3 ∧ 28 ≤ maxDay)

/-- Statement-day consistency of the sorted history. -/
def isConsistentDayOf (h : List HistoricalCycle) : Bool :=
  checkStatementDayConsistency (sortedCyclesOf h)

/-- Due-date offsets: day difference between due date and statement date
of each sorted cycle. -/
def dueDateOffsetsOf (h : List HistoricalCycle) : List ℤ :=
  (sortedCyclesOf h).map (fun c => differenceInDays c.dueDate c.statementDate)

/-- Due-date offset: `Math.round` of the median offset (round half toward
positive infinity, as `Math.round` does). -/
def dueDateOffsetOf (h : List HistoricalCycle) : ℤ :=
  round (calculateMedian (dueDateOffsetsOf h))

/-- Consistency of due-date offsets: population variance below 4. -/
def isConsistentOffsetOf (h : List HistoricalCycle) : Bool :=
  decide (calculateVariance ((dueDateOffsetsOf h).map (fun z => (z : ℚ))) < 4)

/-- Confidence score of the analyzer on the main path: base 0.5, data
quantity bonus, and one bonus per consistency flag, clamped at 1. -/
def confidenceOf (h : List HistoricalCycle) : ℚ :=
  min
    (0.5
      + (if 6 ≤ h.length then 0.2 else if 3 ≤ h.length then 0.1 else 0)
      + (if isConsistentLengthOf h then 0.15 else 0)
      + (if isConsistentDayOf h then 0.1 else 0)
      + (if isConsistentOffsetOf h then 0.05 else 0))
    1

/-- Quality classification of the analyzer on the main path. -/
def qualityOf (h : List HistoricalCycle) : Quality :=
  if 0.8 ≤ confidenceOf h ∧ 6 ≤ h.length then Quality.high
  else if 0.6 ≤ confidenceOf h ∧ 3 ≤ h.length then Quality.medium
  else Quality.low

/-- Insights of the analyzer on the main path, in push order. -/
def insightsOf (h : List HistoricalCycle) : List String :=
  [ (if isConsistentLengthOf h then
      "Consistent billing cycle of " ++ toString (typicalCycleLengthOf h) ++ " days"
    else
      "Variable billing cycle (" ++ toString (listMinZ (cycleLengthsOf h)) ++ "-"
        ++ toString (listMaxZ (cycleLengthsOf h)) ++ " days)")
  , (match (if isConsistentDayOf h then mostCommonDayOf h else none) with
     | some d => if d = 0 then "Statement dates vary by month"
        else "Statements typically close on day " ++ toString d ++ " of the month"
     | none => "Statement dates vary by month")
  , (if isConsistentOffsetOf h then
      "Payment typically due " ++ toString (dueDateOffsetOf h) ++ " days after statement"
    else
      "Due date offset varies between cycles") ]

/-- Model of `analyzeBillingCyclePattern`. -/
def analyzeBillingCyclePattern (historicalCycles : List HistoricalCycle) :
    PatternAnalysisResult :=
  if historicalCycles.length < 2 then
    { pattern :=
        { typicalCycleLength := 30
        , statementDayOfMonth := none
        , dueDateOffset := 21
        , confidence := 0.3 }
    , quality := Quality.low
    , insights := ["Insufficient historical data. Need at least 2 billing cycles."] }
  else
    { pattern :=
        { typicalCycleLength := typicalCycleLengthOf historicalCycles
        , statementDayOfMonth :=
            if isConsistentDayOf historicalCycles then mostCommonDayOf historicalCycles
            else none
        , dueDateOffset := (dueDateOffsetOf historicalCycles : ℚ)
        , confidence := confidenceOf historicalCycles }
    , quality := qualityOf historicalCycles
    , insights := insightsOf historicalCycles }

-- ==================== MONTH-END ADJUSTER & PROJECTOR ====================

/-- Model of `adjustForMonthEnd`: clamp the target day to the last day of
the month of `date`. -/
def adjustForMonthEnd (date : Date) (targetDay : ℤ) : Date :=
  let lastDayOfMonth := daysInMonth date.year date.month
  if (lastDayOfMonth : ℤ) < targetDay then setDateD date (lastDayOfMonth : ℤ)
  else setDateD date targetDay

/-- The next statement date computed by one projector iteration: either
the consistent day-of-month one calendar month ahead (with month-end
handling), or the current date advanced by the typical cycle length. -/
def nextStatementDate (pat : BillingCyclePattern) (current : Date) : Date :=
  match pat.statementDayOfMonth with
  | some t => adjustForMonthEnd (addMonths1 current) t
  | none => addDays current (jsToInteger pat.typicalCycleLength)

/-- The projector loop: `n` remaining iterations, `i` the 0-based index of
the next projection produced. -/
def projectLoop (pat : BillingCyclePattern) : Date → ℕ → ℕ → List BillingCycleProjection
  | _, 0, _ => []
  | current, n + 1, i =>
    let nextD := nextStatementDate pat current
    { cycleStartDate := addDays current 1
    , cycleEndDate := nextD
    , paymentDueDate := addDays nextD (jsToInteger pat.dueDateOffset)
    , isProjected := true
    , confidence := pat.confidence * (1 - (i : ℚ) * 0.05) }
      :: projectLoop pat nextD n (i + 1)

/-- Model of `projectFutureCycles`: the `for (let i = 0; i < monthsAhead; i++)`
loop runs `max monthsAhead 0` times (none at all for a negative bound). -/
def projectFutureCycles (lastKnownCycle : HistoricalCycle) (pat : BillingCyclePattern)
    (monthsAhead : ℤ) : List BillingCycleProjection :=
  projectLoop pat lastKnownCycle.statementDate monthsAhead.toNat 0

-- ==================== TRANSACTION-CYCLE ASSIGNER ====================

/-- Containment of a date in the closed interval of a cycle
(`transactionDate >= cycleStartDate && transactionDate <= cycleEndDate`). -/
def inCycle (transactionDate : Date) (cycle : BillingCycleProjection) : Bool :=
  decide (dateLe cycle.cycleStartDate transactionDate)
    && decide (dateLe transactionDate cycle.cycleEndDate)

/-- Model of `assignTransactionToCycle`: scan the cycles in order,
returning the first one containing the transaction date. -/
def assignTransactionToCycle (transactionDate : Date) :
    List BillingCycleProjection → Option BillingCycleProjection
  | [] => none
  | cycle :: rest =>
    if inCycle transactionDate cycle then some cycle
    else assignTransactionToCycle transactionDate rest

-- ==================== CONFIDENCE SCORER ====================

/-- Data provenance of an account. -/
inductive DataSource where
  | plaid
  | inferred
  | manual
deriving DecidableEq, Repr

/-- Model of `calculateCycleConfidence`: provenance factor, staleness
decay beyond 48 hours, clamp to the unit interval. -/
def calculateCycleConfidence (dataSource : DataSource) (dataAgeHours : ℚ)
    (patternConfidence : ℚ) : ℚ :=
  let confidence := patternConfidence
  let confidence :=
    match dataSource with
    | DataSource.plaid => confidence * 1.0
    | DataSource.inferred => confidence * 0.85
    | DataSource.manual => confidence * 0.7
  let confidence :=
    if 48 < dataAgeHours then confidence * max 0.5 (1 - (dataAgeHours - 48) / 720)
    else confidence
  max 0 (min 1 confidence)


-- ==================== SPEC-SIDE DEFINITIONS ====================

/-- Order instance for the cycle sort relation. -/
instance : IsTotal HistoricalCycle
    (fun a b => toDayNumber a.statementDate ≤ toDayNumber b.statementDate) :=
  ⟨fun a b => Nat.le_total (toDayNumber a.statementDate) (toDayNumber b.statementDate)⟩

/-- Transitivity instance for the cycle sort relation. -/
instance : IsTrans HistoricalCycle
    (fun a b => toDayNumber a.statementDate ≤ toDayNumber b.statementDate) :=
  ⟨fun _ _ _ hab hbc => Nat.le_trans hab hbc⟩

/-- Provenance factor of the spec formula for the confidence scorer
(`plaid` 1.0, `inferred` 0.85, `manual` 0.7). -/
def provenanceFactor : DataSource → ℚ
  | DataSource.plaid => 1.0
  | DataSource.inferred => 0.85
  | DataSource.manual => 0.7

/-- Staleness factor of the spec formula: linear decay beyond 48 hours
with a floor of 0.5, no decay before that. -/
def stalenessFactor (dataAgeHours : ℚ) : ℚ :=
  if 48 < dataAgeHours then max 0.5 (1 - (dataAgeHours - 48) / 720) else 1

/-- The spec-side closed form of the cycle confidence: pattern confidence
times provenance factor times staleness factor, clamped to the unit
interval.  Compared with `calculateCycleConfidence` below. -/
def cycleConfidenceSpec (dataSource : DataSource) (dataAgeHours patternConfidence : ℚ) : ℚ :=
  max 0 (min 1 (patternConfidence * provenanceFactor dataSource * stalenessFactor dataAgeHours))

/-- The null-statement-day projection behaviour: the projection list has
one entry per month ahead; statement (cycle end) dates advance by exactly
the truncated typical cycle length per iteration from the last known
statement date; each payment due date is its statement date plus the
truncated due-date offset; the 0-based i-th confidence is
`pattern.confidence * (1 - i * 0.05)` with no floor at zero, which makes
it zero at index 20 and strictly negative from index 21 on whenever the
pattern confidence is positive. -/
def NullDayProjectionSpec (c : HistoricalCycle) (pat : BillingCyclePattern)
    (monthsAhead : ℤ) : Prop :=
  (projectFutureCycles c pat monthsAhead).length = monthsAhead.toNat ∧
  (∀ p, (projectFutureCycles c pat monthsAhead)[0]? = some p →
    p.cycleEndDate = addDays c.statementDate (jsToInteger pat.typicalCycleLength)) ∧
  (∀ (i : ℕ) (p q : BillingCycleProjection),
    (projectFutureCycles c pat monthsAhead)[i]? = some p →
    (projectFutureCycles c pat monthsAhead)[i + 1]? = some q →
    q.cycleEndDate = addDays p.cycleEndDate (jsToInteger pat.typicalCycleLength) ∧
    q.cycleStartDate = addDays p.cycleEndDate 1) ∧
  (∀ p ∈ projectFutureCycles c pat monthsAhead,
    p.paymentDueDate = addDays p.cycleEndDate (jsToInteger pat.dueDateOffset)) ∧
  (∀ (i : ℕ) (p : BillingCycleProjection),
    (projectFutureCycles c pat monthsAhead)[i]? = some p →
    p.confidence = pat.confidence * (1 - (i : ℚ) * 0.05)) ∧
  (0 < pat.confidence → ∀ (i : ℕ) (p : BillingCycleProjection),
    (projectFutureCycles c pat monthsAhead)[i]? = some p →
    (20 ≤ i → p.confidence ≤ 0) ∧ (21 ≤ i → p.confidence < 0))

/-- Well-formedness of a projection sequence: each projection has
cycle start before cycle end before payment due date, and consecutive
projections chain with the later cycle starting exactly one day after
the earlier one ends. -/
def ProjectionInvariants (ps : List BillingCycleProjection) : Prop :=
  (∀ p ∈ ps, dateLt p.cycleStartDate p.cycleEndDate ∧ dateLt p.cycleEndDate p.paymentDueDate)
  ∧ (∀ (i : ℕ) (p q : BillingCycleProjection), ps[i]? = some p → ps[i + 1]? = some q →
      q.cycleStartDate = addDays p.cycleEndDate 1)

/-- Concrete example history whose consecutive day-differences
(29, 30, 31) are pairwise distinct. -/
def distinctDiffsHistory : List HistoricalCycle :=
  [⟨⟨2024, 1, 1⟩, ⟨2024, 1, 22⟩, none⟩, ⟨⟨2024, 1, 30⟩, ⟨2024, 2, 20⟩, none⟩,
   ⟨⟨2024, 2, 29⟩, ⟨2024, 3, 21⟩, none⟩, ⟨⟨2024, 3, 31⟩, ⟨2024, 4, 21⟩, none⟩]

/-- Concrete two-cycle history with a single 28-day cycle length. -/
def shortHistory : List HistoricalCycle :=
  [⟨⟨2024, 3, 1⟩, ⟨2024, 3, 22⟩, none⟩, ⟨⟨2024, 3, 29⟩, ⟨2024, 4, 19⟩, none⟩]

/-- The same history extended by one further cycle (a sub-history
relation by construction); the added cycle brings the cycle-length
variance up to 4, breaking the length-consistency test. -/
def extendedHistory : List HistoricalCycle :=
  shortHistory ++ [⟨⟨2024, 4, 30⟩, ⟨2024, 5, 21⟩, none⟩]

/-- Concrete two-cycle history with a steady 30-day cycle and 21-day
due-date offset. -/
def steadyHistory : List HistoricalCycle :=
  [⟨⟨2024, 1, 15⟩, ⟨2024, 2, 5⟩, none⟩, ⟨⟨2024, 2, 14⟩, ⟨2024, 3, 6⟩, none⟩]

/-- The same steady history extended by one further on-pattern cycle
(a sub-history relation by construction); every consistency test keeps
its outcome and the extra cycle only adds the data-quantity bonus. -/
def steadyHistoryPlus : List HistoricalCycle :=
  steadyHistory ++ [⟨⟨2024, 3, 15⟩, ⟨2024, 4, 5⟩, none⟩]

-- ==================== CALENDAR LEMMAS ====================

theorem daysInMonth_pos (y m : ℕ) : 1 ≤ daysInMonth y m := by
  unfold daysInMonth; split_ifs <;> norm_num

theorem daysBeforeMonth_succ (y m : ℕ) (hm : 1 ≤ m) :
    daysBeforeMonth y (m + 1) = daysBeforeMonth y m + daysInMonth y m := by
  cases m with
  | zero => omega
  | succ k => simp [daysBeforeMonth]

theorem daysBeforeMonth_twelve (y : ℕ) :
    daysBeforeMonth y 12 = 334 + (if IsLeapYear y then 1 else 0) := by
  by_cases h : IsLeapYear y <;>
    norm_num [daysBeforeMonth, daysInMonth, h]

set_option maxHeartbeats 1000000 in
theorem leapCount_succ (y : ℕ) (hy : 1 ≤ y) :
    leapCount y = leapCount (y - 1) + (if IsLeapYear y then 1 else 0) := by
  unfold leapCount IsLeapYear
  split_ifs with h
  · omega
  · omega

theorem toDayNumber_addOneDay (d : Date) (hd : ValidDate d) :
    toDayNumber (addOneDay d) = toDayNumber d + 1 := by
  obtain ⟨hy, hm1, hm2, hd1, hd2⟩ := hd
  unfold addOneDay
  split_ifs with h1 h2
  · show 365 * (d.year - 1) + leapCount (d.year - 1) + daysBeforeMonth d.year d.month
        + (d.day + 1)
      = 365 * (d.year - 1) + leapCount (d.year - 1) + daysBeforeMonth d.year d.month
        + d.day + 1
    omega
  · -- month rollover: the day is the last of the month
    show 365 * (d.year - 1) + leapCount (d.year - 1) + daysBeforeMonth d.year (d.month + 1)
        + 1
      = 365 * (d.year - 1) + leapCount (d.year - 1) + daysBeforeMonth d.year d.month
        + d.day + 1
    have hstep := daysBeforeMonth_succ d.year d.month hm1
    omega
  · -- year rollover: December 31st
    have hm12 : d.month = 12 := by omega
    rw [hm12] at hd2 h1
    have h31 : daysInMonth d.year 12 = 31 := by norm_num [daysInMonth]
    rw [h31] at hd2 h1
    have hday : d.day = 31 := by omega
    show 365 * d.year + leapCount d.year + 0 + 1
      = 365 * (d.year - 1) + leapCount (d.year - 1) + daysBeforeMonth d.year d.month
        + d.day + 1
    rw [hm12, hday]
    have h334 := daysBeforeMonth_twelve d.year
    have hlc := leapCount_succ d.year hy
    split_ifs at h334 hlc <;> omega

theorem validDate_addOneDay (d : Date) (hd : ValidDate d) : ValidDate (addOneDay d) := by
  obtain ⟨hy, hm1, hm2, hd1, hd2⟩ := hd
  unfold addOneDay
  split_ifs with h1 h2
  · exact ⟨hy, hm1, hm2, Nat.succ_le_succ (Nat.zero_le _), h1⟩
  · exact ⟨hy, Nat.succ_le_succ (Nat.zero_le _), h2, le_refl 1, daysInMonth_pos _ _⟩
  · exact ⟨Nat.succ_le_succ (Nat.zero_le _), le_refl 1,
      show (1 : ℕ) ≤ 12 by norm_num, le_refl 1, daysInMonth_pos _ _⟩

theorem toDayNumber_addDaysNat (d : Date) (hd : ValidDate d) (n : ℕ) :
    toDayNumber (addDaysNat d n) = toDayNumber d + n ∧ ValidDate (addDaysNat d n) := by
  induction n with
  | zero => exact ⟨rfl, hd⟩
  | succ k ih =>
    obtain ⟨hnum, hval⟩ := ih
    refine ⟨?_, validDate_addOneDay _ hval⟩
    simp only [addDaysNat]
    rw [toDayNumber_addOneDay _ hval, hnum]
    omega

theorem toDayNumber_addDays (d : Date) (hd : ValidDate d) (n : ℤ) (hn : 0 ≤ n) :
    toDayNumber (addDays d n) = toDayNumber d + n.toNat ∧ ValidDate (addDays d n) := by
  unfold addDays
  rw [if_pos hn]
  exact toDayNumber_addDaysNat d hd n.toNat

-- ==================== MODE CHARACTERIZATION ====================

theorem modeFold_spec (xs : List ℤ) (ks : List ℤ) : ∀ (b : ℕ) (o : Option ℤ),
    ks.Pairwise (· < ·) →
    (ks.foldl (modeStep xs) (b, o) = (b, o) ∧ ∀ k ∈ ks, xs.count k ≤ b) ∨
    (∃ m ∈ ks, ks.foldl (modeStep xs) (b, o) = (xs.count m, some m) ∧ b < xs.count m ∧
      (∀ k ∈ ks, xs.count k ≤ xs.count m) ∧
      (∀ k ∈ ks, xs.count k = xs.count m → m ≤ k)) := by
  induction ks with
  | nil =>
    intro b o _
    left
    exact ⟨rfl, by simp⟩
  | cons k0 ks ih =>
    intro b o hp
    rw [List.pairwise_cons] at hp
    obtain ⟨hk0, hp'⟩ := hp
    have hstep : (k0 :: ks).foldl (modeStep xs) (b, o)
        = ks.foldl (modeStep xs) (modeStep xs (b, o) k0) := by
      simp [List.foldl_cons]
    by_cases hb : b < xs.count k0
    · have hstep0 : modeStep xs (b, o) k0 = (xs.count k0, some k0) := by
        simp [modeStep, hb]
      rcases ih (xs.count k0) (some k0) hp' with ⟨heq, hall⟩ | ⟨m, hm, heq, hlt, hbound, hmin⟩
      · right
        refine ⟨k0, List.mem_cons_self _ _, ?_, hb, ?_, ?_⟩
        · rw [hstep, hstep0, heq]
        · intro k hk
          rcases List.mem_cons.mp hk with rfl | hk
          · exact le_refl _
          · exact hall k hk
        · intro k hk _
          rcases List.mem_cons.mp hk with rfl | hk
          · exact le_refl _
          · exact le_of_lt (hk0 k hk)
      · right
        refine ⟨m, List.mem_cons_of_mem _ hm, ?_, lt_trans hb hlt, ?_, ?_⟩
        · rw [hstep, hstep0, heq]
        · intro k hk
          rcases List.mem_cons.mp hk with rfl | hk
          · exact le_of_lt hlt
          · exact hbound k hk
        · intro k hk hcnt
          rcases List.mem_cons.mp hk with rfl | hk
          · exact absurd hcnt (ne_of_lt hlt)
          · exact hmin k hk hcnt
    · have hstep0 : modeStep xs (b, o) k0 = (b, o) := by
        simp [modeStep, hb]
      rcases ih b o hp' with ⟨heq, hall⟩ | ⟨m, hm, heq, hlt, hbound, hmin⟩
      · left
        refine ⟨?_, ?_⟩
        · rw [hstep, hstep0, heq]
        · intro k hk
          rcases List.mem_cons.mp hk with rfl | hk
          · exact le_of_not_lt hb
          · exact hall k hk
      · right
        refine ⟨m, List.mem_cons_of_mem _ hm, ?_, hlt, ?_, ?_⟩
        · rw [hstep, hstep0, heq]
        · intro k hk
          rcases List.mem_cons.mp hk with rfl | hk
          · have hlt' : xs.count k < xs.count m := lt_of_le_of_lt (le_of_not_lt hb) hlt
            exact le_of_lt hlt'
          · exact hbound k hk
        · intro k hk hcnt
          rcases List.mem_cons.mp hk with rfl | hk
          · have hlt' : xs.count k < xs.count m := lt_of_le_of_lt (le_of_not_lt hb) hlt
            exact absurd hcnt (ne_of_lt hlt')
          · exact hmin k hk hcnt

theorem toNat_le_natMaxOf (xs : List ℤ) : ∀ x ∈ xs, x.toNat ≤ natMaxOf xs := by
  induction xs with
  | nil => simp
  | cons y l ih =>
    intro x hx
    rcases List.mem_cons.mp hx with rfl | hx
    · simp [natMaxOf]
    · have := ih x hx
      simp only [natMaxOf, List.foldr_cons]
      exact le_trans this (le_max_right _ _)

theorem firstDedup_nil : firstDedup [] = [] := by
  simp [firstDedup]

theorem negFilter_eq_nil (xs : List ℤ) (hnn : ∀ x ∈ xs, 0 ≤ x) :
    xs.filter (fun x => decide (x < 0)) = [] := by
  rw [List.filter_eq_nil_iff]
  intro a ha
  simpa using not_lt.mpr (hnn a ha)

theorem mem_modeKeys_iff (xs : List ℤ) (hnn : ∀ x ∈ xs, 0 ≤ x) (k : ℤ) :
    k ∈ modeKeys xs ↔ k ∈ xs := by
  unfold modeKeys
  rw [negFilter_eq_nil xs hnn, firstDedup_nil, List.append_nil, List.mem_filter]
  constructor
  · rintro ⟨-, hk⟩
    simpa using hk
  · intro hk
    refine ⟨?_, by simpa using hk⟩
    rw [List.mem_map]
    refine ⟨k.toNat, ?_, Int.toNat_of_nonneg (hnn k hk)⟩
    rw [List.mem_range]
    exact Nat.lt_succ_of_le (toNat_le_natMaxOf xs k hk)

theorem modeKeys_pairwise (xs : List ℤ) (hnn : ∀ x ∈ xs, 0 ≤ x) :
    (modeKeys xs).Pairwise (· < ·) := by
  unfold modeKeys
  rw [negFilter_eq_nil xs hnn, firstDedup_nil, List.append_nil]
  exact List.Pairwise.filter _
    (List.Pairwise.map Int.ofNat (fun a b hab => Int.ofNat_lt.mpr hab)
      (List.pairwise_lt_range _))

/-- Characterization of `calculateMode` on lists of non-negative values:
it returns the smallest value attaining the maximal frequency. -/
theorem calculateMode_spec (xs : List ℤ) (hne : xs ≠ []) (hnn : ∀ x ∈ xs, 0 ≤ x) :
    ∃ m, calculateMode xs = some m ∧ m ∈ xs ∧
      (∀ k ∈ xs, xs.count k ≤ xs.count m) ∧
      (∀ k ∈ xs, xs.count k = xs.count m → m ≤ k) := by
  obtain ⟨x, hx⟩ := List.exists_mem_of_ne_nil xs hne
  have hmem := mem_modeKeys_iff xs hnn
  rcases modeFold_spec xs (modeKeys xs) 0 none (modeKeys_pairwise xs hnn) with
    ⟨-, hall⟩ | ⟨m, hm, heq, -, hbound, hmin⟩
  · exfalso
    have hx' : x ∈ modeKeys xs := (hmem x).mpr hx
    have := hall x hx'
    have : 0 < xs.count x := List.count_pos_iff.mpr hx
    omega
  · refine ⟨m, ?_, (hmem m).mp hm, ?_, ?_⟩
    · unfold calculateMode
      rw [heq]
    · intro k hk
      exact hbound k ((hmem k).mpr hk)
    · intro k hk
      exact hmin k ((hmem k).mpr hk)

-- ==================== MORE CALENDAR LEMMAS ====================

theorem validDate_addMonths1 (d : Date) (hd : ValidDate d) : ValidDate (addMonths1 d) := by
  obtain ⟨hy, hm1, hm2, hd1, hd2⟩ := hd
  unfold addMonths1
  split_ifs with h1
  · exact ⟨hy, Nat.succ_le_succ (Nat.zero_le _), h1,
      le_min hd1 (daysInMonth_pos _ _), min_le_right _ _⟩
  · refine ⟨Nat.succ_le_succ (Nat.zero_le _), le_refl 1,
      show (1 : ℕ) ≤ 12 by norm_num, le_min hd1 (by norm_num), ?_⟩
    show min d.day 31 ≤ daysInMonth (d.year + 1) 1
    have : daysInMonth (d.year + 1) 1 = 31 := by norm_num [daysInMonth]
    rw [this]
    exact min_le_right _ _

theorem validDate_adjustForMonthEnd (d : Date) (t : ℤ) (hd : ValidDate d) (ht : 1 ≤ t) :
    ValidDate (adjustForMonthEnd d t) := by
  obtain ⟨hy, hm1, hm2, hd1, hd2⟩ := hd
  unfold adjustForMonthEnd setDateD
  have hpos := daysInMonth_pos d.year d.month
  dsimp only
  split_ifs with h1
  · refine ⟨hy, hm1, hm2, ?_, ?_⟩
    · show 1 ≤ ((daysInMonth d.year d.month : ℤ)).toNat
      omega
    · show ((daysInMonth d.year d.month : ℤ)).toNat ≤ daysInMonth d.year d.month
      omega
  · refine ⟨hy, hm1, hm2, ?_, ?_⟩
    · show 1 ≤ t.toNat
      omega
    · show t.toNat ≤ daysInMonth d.year d.month
      omega

-- ==================== PROJECTOR LOOP LEMMAS ====================

theorem projectLoop_length (pat : BillingCyclePattern) :
    ∀ (n : ℕ) (cur : Date) (i : ℕ), (projectLoop pat cur n i).length = n
  | 0, cur, i => rfl
  | n + 1, cur, i => by
    simp only [projectLoop, List.length_cons]
    rw [projectLoop_length pat n]

theorem projectLoop_getElem_zero (pat : BillingCyclePattern) (cur : Date) (n i : ℕ) :
    (projectLoop pat cur (n + 1) i)[0]? =
      some
        { cycleStartDate := addDays cur 1
        , cycleEndDate := nextStatementDate pat cur
        , paymentDueDate := addDays (nextStatementDate pat cur) (jsToInteger pat.dueDateOffset)
        , isProjected := true
        , confidence := pat.confidence * (1 - (i : ℚ) * 0.05) } := by
  simp [projectLoop]

theorem projectLoop_getElem_succ (pat : BillingCyclePattern) (cur : Date) (n i j : ℕ) :
    (projectLoop pat cur (n + 1) i)[j + 1]? =
      (projectLoop pat (nextStatementDate pat cur) n (i + 1))[j]? := by
  simp [projectLoop]

theorem projectLoop_confidence (pat : BillingCyclePattern) :
    ∀ (n : ℕ) (cur : Date) (i j : ℕ) (p : BillingCycleProjection),
      (projectLoop pat cur n i)[j]? = some p →
      p.confidence = pat.confidence * (1 - ((i + j : ℕ) : ℚ) * 0.05)
  | 0, cur, i, j, p => by simp [projectLoop]
  | n + 1, cur, i, 0, p => by
    intro hp
    rw [projectLoop_getElem_zero] at hp
    obtain rfl := (Option.some_inj.mp hp).symm
    simp
  | n + 1, cur, i, j + 1, p => by
    intro hp
    rw [projectLoop_getElem_succ] at hp
    have h := projectLoop_confidence pat n (nextStatementDate pat cur) (i + 1) j p hp
    rw [h]
    have : i + 1 + j = i + (j + 1) := by omega
    rw [this]

theorem projectLoop_due (pat : BillingCyclePattern) :
    ∀ (n : ℕ) (cur : Date) (i : ℕ), ∀ p ∈ projectLoop pat cur n i,
      p.paymentDueDate = addDays p.cycleEndDate (jsToInteger pat.dueDateOffset)
  | 0, cur, i => by simp [projectLoop]
  | n + 1, cur, i => by
    intro p hp
    simp only [projectLoop, List.mem_cons] at hp
    rcases hp with rfl | hp
    · rfl
    · exact projectLoop_due pat n (nextStatementDate pat cur) (i + 1) p hp

theorem projectLoop_chain (pat : BillingCyclePattern) :
    ∀ (n : ℕ) (cur : Date) (i j : ℕ) (p q : BillingCycleProjection),
      (projectLoop pat cur n i)[j]? = some p →
      (projectLoop pat cur n i)[j + 1]? = some q →
      q.cycleEndDate = nextStatementDate pat p.cycleEndDate ∧
      q.cycleStartDate = addDays p.cycleEndDate 1
  | 0, cur, i, j, p, q => by simp [projectLoop]
  | n + 1, cur, i, 0, p, q => by
    intro hp hq
    rw [projectLoop_getElem_zero] at hp
    obtain rfl := (Option.some_inj.mp hp).symm
    rw [projectLoop_getElem_succ] at hq
    cases n with
    | zero => simp [projectLoop] at hq
    | succ m =>
      rw [projectLoop_getElem_zero] at hq
      obtain rfl := (Option.some_inj.mp hq).symm
      exact ⟨rfl, rfl⟩
  | n + 1, cur, i, j + 1, p, q => by
    intro hp hq
    rw [projectLoop_getElem_succ] at hp hq
    exact projectLoop_chain pat n (nextStatementDate pat cur) (i + 1) j p q hp hq

theorem projectLoop_wf (pat : BillingCyclePattern)
    (hnext : ∀ d, ValidDate d →
      ValidDate (nextStatementDate pat d) ∧ dateLt (addDays d 1) (nextStatementDate pat d))
    (hoff : 1 ≤ jsToInteger pat.dueDateOffset) :
    ∀ (n : ℕ) (cur : Date) (i : ℕ), ValidDate cur → ∀ p ∈ projectLoop pat cur n i,
      dateLt p.cycleStartDate p.cycleEndDate ∧ dateLt p.cycleEndDate p.paymentDueDate
  | 0, cur, i, _ => by simp [projectLoop]
  | n + 1, cur, i, hv => by
    intro p hp
    obtain ⟨hvnext, hltnext⟩ := hnext cur hv
    simp only [projectLoop, List.mem_cons] at hp
    rcases hp with rfl | hp
    · refine ⟨hltnext, ?_⟩
      show dateLt (nextStatementDate pat cur) (addDays (nextStatementDate pat cur) _)
      obtain ⟨hnum, -⟩ :=
        toDayNumber_addDays (nextStatementDate pat cur) hvnext (jsToInteger pat.dueDateOffset)
          (by omega)
      unfold dateLt
      rw [hnum]
      omega
    · exact projectLoop_wf pat hnext hoff n (nextStatementDate pat cur) (i + 1) hvnext p hp

-- ==================== ANALYZER SORTING LEMMAS ====================

theorem sortedCyclesOf_sorted (h : List HistoricalCycle) :
    (sortedCyclesOf h).Pairwise
      (fun a b => toDayNumber a.statementDate ≤ toDayNumber b.statementDate) :=
  List.sorted_insertionSort _ h

theorem sortedCyclesOf_length (h : List HistoricalCycle) :
    (sortedCyclesOf h).length = h.length :=
  List.length_insertionSort _ h

theorem consecutiveDiffs_length :
    ∀ ds : List Date, (consecutiveDiffs ds).length = ds.length - 1
  | [] => rfl
  | [_] => rfl
  | a :: b :: rest => by
    simp only [consecutiveDiffs, List.length_cons]
    rw [consecutiveDiffs_length (b :: rest)]
    simp

theorem consecutiveDiffs_nonneg :
    ∀ ds : List Date, ds.Pairwise (fun a b => toDayNumber a ≤ toDayNumber b) →
      ∀ x ∈ consecutiveDiffs ds, 0 ≤ x
  | [] => by simp [consecutiveDiffs]
  | [_] => by simp [consecutiveDiffs]
  | a :: b :: rest => by
    intro hp x hx
    rw [List.pairwise_cons] at hp
    obtain ⟨hab, hp'⟩ := hp
    simp only [consecutiveDiffs, List.mem_cons] at hx
    rcases hx with rfl | hx
    · have := hab b (List.mem_cons_self _ _)
      unfold differenceInDays
      omega
    · exact consecutiveDiffs_nonneg (b :: rest) hp' x hx

theorem cycleLengthsOf_nonneg (h : List HistoricalCycle) :
    ∀ x ∈ cycleLengthsOf h, 0 ≤ x := by
  unfold cycleLengthsOf
  apply consecutiveDiffs_nonneg
  rw [List.pairwise_map]
  exact sortedCyclesOf_sorted h

theorem cycleLengthsOf_ne_nil (h : List HistoricalCycle) (hlen : 2 ≤ h.length) :
    cycleLengthsOf h ≠ [] := by
  have hl : (cycleLengthsOf h).length = h.length - 1 := by
    unfold cycleLengthsOf
    rw [consecutiveDiffs_length, List.length_map, sortedCyclesOf_length]
  intro hnil
  rw [hnil] at hl
  simp at hl
  omega

-- ==================== CLAIM C3 ====================

/-- C3: for every history of fewer than 2 cycles (the empty history and
every single-cycle history), `analyzeBillingCyclePattern` returns exactly
the fixed default pattern `{30, null, 21, 0.3}`, quality low, and the
single insufficient-history insight. -/
theorem analyze_insufficient_default (h : List HistoricalCycle) (hlen : h.length < 2) :
    analyzeBillingCyclePattern h =
      { pattern :=
          { typicalCycleLength := 30
          , statementDayOfMonth := none
          , dueDateOffset := 21
          , confidence := 0.3 }
      , quality := Quality.low
      , insights := ["Insufficient historical data. Need at least 2 billing cycles."] } := by
  unfold analyzeBillingCyclePattern
  rw [if_pos hlen]

/-- Witness for C3 at the empty history and a one-cycle history. -/
theorem analyze_insufficient_default_witness :
    (([] : List HistoricalCycle).length < 2 ∧
      analyzeBillingCyclePattern [] =
        { pattern :=
            { typicalCycleLength := 30
            , statementDayOfMonth := none
            , dueDateOffset := 21
            , confidence := 0.3 }
        , quality := Quality.low
        , insights := ["Insufficient historical data. Need at least 2 billing cycles."] }) ∧
    (([⟨⟨2024, 1, 15⟩, ⟨2024, 2, 5⟩, none⟩] : List HistoricalCycle).length < 2 ∧
      analyzeBillingCyclePattern [⟨⟨2024, 1, 15⟩, ⟨2024, 2, 5⟩, none⟩] =
        { pattern :=
            { typicalCycleLength := 30
            , statementDayOfMonth := none
            , dueDateOffset := 21
            , confidence := 0.3 }
        , quality := Quality.low
        , insights := ["Insufficient historical data. Need at least 2 billing cycles."] }) :=
  ⟨⟨by decide, analyze_insufficient_default [] (by decide)⟩,
   ⟨by decide, analyze_insufficient_default [⟨⟨2024, 1, 15⟩, ⟨2024, 2, 5⟩, none⟩] (by decide)⟩⟩

-- ==================== CLAIM C6 ====================

/-- C6: for every data source, non-negative data age and pattern
confidence, `calculateCycleConfidence` equals the spec's closed form
(provenance factor, staleness decay beyond 48 hours with floor 0.5,
clamped to the unit interval); and concretely
`calculateCycleConfidence plaid 72 0.9 = 0.87`. -/
theorem calculateCycleConfidence_spec :
    (∀ (ds : DataSource) (age conf : ℚ), 0 ≤ age →
      calculateCycleConfidence ds age conf = cycleConfidenceSpec ds age conf) ∧
    calculateCycleConfidence DataSource.plaid 72 0.9 = 0.87 := by
  constructor
  · intro ds age conf _
    unfold calculateCycleConfidence cycleConfidenceSpec provenanceFactor stalenessFactor
    cases ds <;> dsimp only <;> split_ifs <;> simp [mul_one]
  · unfold calculateCycleConfidence
    dsimp only
    rw [if_pos (show (48 : ℚ) < 72 by norm_num)]
    rw [show (1 : ℚ) - (72 - 48) / 720 = 29 / 30 by norm_num]
    rw [max_eq_right (by norm_num : (0.5 : ℚ) ≤ 29 / 30)]
    rw [show (0.9 : ℚ) * 1.0 * (29 / 30) = 0.87 by norm_num]
    rw [min_eq_right (by norm_num : (0.87 : ℚ) ≤ 1)]
    rw [max_eq_right (by norm_num : (0 : ℚ) ≤ 0.87)]

/-- Witness for C6 at the `plaid`, 72 hours, 0.9 confidence input. -/
theorem calculateCycleConfidence_spec_witness :
    (0 : ℚ) ≤ 72 ∧
    calculateCycleConfidence DataSource.plaid 72 0.9 =
      cycleConfidenceSpec DataSource.plaid 72 0.9 :=
  ⟨by decide, calculateCycleConfidence_spec.1 DataSource.plaid 72 0.9 (by decide)⟩

-- ==================== CLAIM C7 ====================

/-- C7: for every valid calendar date and every target day at least 1,
`adjustForMonthEnd` keeps the month and year and sets the day of month to
the minimum of the target day and the last day of that month. -/
theorem adjustForMonthEnd_spec (d : Date) (t : ℤ) (hd : ValidDate d) (ht : 1 ≤ t) :
    (adjustForMonthEnd d t).year = d.year ∧ (adjustForMonthEnd d t).month = d.month ∧
      ((adjustForMonthEnd d t).day : ℤ) = min t (daysInMonth d.year d.month : ℤ) := by
  obtain ⟨hy, hm1, hm2, hd1, hd2⟩ := hd
  unfold adjustForMonthEnd setDateD
  dsimp only
  split_ifs with h1
  · refine ⟨rfl, rfl, ?_⟩
    show ((((daysInMonth d.year d.month : ℤ)).toNat : ℕ) : ℤ) = _
    rw [min_eq_right (le_of_lt h1)]
    omega
  · refine ⟨rfl, rfl, ?_⟩
    show ((t.toNat : ℕ) : ℤ) = _
    rw [min_eq_left (not_lt.mp h1)]
    omega

/-- Witness for C7: target day 31 in non-leap February yields the 28th,
in leap February the 29th, in April the 30th. -/
theorem adjustForMonthEnd_spec_witness :
    (ValidDate ⟨2023, 2, 14⟩ ∧ 1 ≤ (31 : ℤ) ∧
      ((adjustForMonthEnd ⟨2023, 2, 14⟩ 31).year = 2023 ∧
        (adjustForMonthEnd ⟨2023, 2, 14⟩ 31).month = 2 ∧
        ((adjustForMonthEnd ⟨2023, 2, 14⟩ 31).day : ℤ) = min 31 (daysInMonth 2023 2 : ℤ))) ∧
    (adjustForMonthEnd ⟨2023, 2, 14⟩ 31).day = 28 ∧
    (adjustForMonthEnd ⟨2024, 2, 14⟩ 31).day = 29 ∧
    (adjustForMonthEnd ⟨2024, 4, 10⟩ 31).day = 30 :=
  ⟨⟨by decide, by decide, adjustForMonthEnd_spec ⟨2023, 2, 14⟩ 31 (by decide) (by decide)⟩,
   by decide, by decide, by decide⟩

-- ==================== CLAIM C8 ====================

/-- C8: a negative `monthsAhead` is not surfaced as an error: the
projection loop simply runs zero times and `projectFutureCycles`
silently returns the normal empty list (there is no error channel in its
return type at all). -/
theorem projectFutureCycles_negative_monthsAhead (c : HistoricalCycle)
    (pat : BillingCyclePattern) (monthsAhead : ℤ) (hm : monthsAhead < 0) :
    projectFutureCycles c pat monthsAhead = [] := by
  unfold projectFutureCycles
  have h0 : monthsAhead.toNat = 0 := by omega
  rw [h0]
  rfl

/-- Witness for C8 at `monthsAhead = -1`. -/
theorem projectFutureCycles_negative_monthsAhead_witness :
    (-1 : ℤ) < 0 ∧
    projectFutureCycles ⟨⟨2024, 1, 15⟩, ⟨2024, 2, 5⟩, none⟩ ⟨30, none, 21, 0.9⟩ (-1) = [] :=
  ⟨by decide,
    projectFutureCycles_negative_monthsAhead ⟨⟨2024, 1, 15⟩, ⟨2024, 2, 5⟩, none⟩
      ⟨30, none, 21, 0.9⟩ (-1) (by decide)⟩

-- ==================== CLAIM C10 ====================

/-- C10: on every non-empty list of non-negative integers,
`calculateMode` returns a value, that value attains the maximal
frequency, and frequency ties break deterministically toward the
smallest value (the frequency table's keys are walked in ascending order
and only a strictly greater count replaces the candidate). -/
theorem calculateMode_min_tiebreak (xs : List ℤ) (hne : xs ≠ [])
    (hnn : ∀ x ∈ xs, 0 ≤ x) :
    ∃ m, calculateMode xs = some m ∧ m ∈ xs ∧
      (∀ k ∈ xs, xs.count k ≤ xs.count m) ∧
      (∀ k ∈ xs, xs.count k = xs.count m → m ≤ k) :=
  calculateMode_spec xs hne hnn

/-- Witness for C10 on the tie `[3, 5, 3, 5]` (mode 3, the smaller). -/
theorem calculateMode_min_tiebreak_witness :
    ([(3 : ℤ), 5, 3, 5] ≠ [] ∧ ∀ x ∈ [(3 : ℤ), 5, 3, 5], 0 ≤ x) ∧
    (∃ m, calculateMode [(3 : ℤ), 5, 3, 5] = some m ∧ m ∈ [(3 : ℤ), 5, 3, 5] ∧
      (∀ k ∈ [(3 : ℤ), 5, 3, 5],
        [(3 : ℤ), 5, 3, 5].count k ≤ [(3 : ℤ), 5, 3, 5].count m) ∧
      (∀ k ∈ [(3 : ℤ), 5, 3, 5],
        [(3 : ℤ), 5, 3, 5].count k = [(3 : ℤ), 5, 3, 5].count m → m ≤ k)) :=
  ⟨⟨by decide, by decide⟩, calculateMode_min_tiebreak [3, 5, 3, 5] (by decide) (by decide)⟩

-- ==================== CLAIM C1 ====================

/-- C1 (amended): for every pattern with `statementDayOfMonth = null` and
every `monthsAhead ≥ 0`, `projectFutureCycles` advances the statement
date by exactly the (truncated) typical cycle length per iteration, sets
each payment due date to that statement date plus the due-date offset,
and sets the i-th confidence to `pattern.confidence * (1 - i * 0.05)`
with no floor at zero -- the confidence is zero at index 20 and strictly
negative from index 21 on (not already at index 20, which the original
claim asserted). -/
theorem projectFutureCycles_nullDay_spec (c : HistoricalCycle) (pat : BillingCyclePattern)
    (monthsAhead : ℤ) (hnull : pat.statementDayOfMonth = none) (_hm : 0 ≤ monthsAhead) :
    NullDayProjectionSpec c pat monthsAhead := by
  have hnext : ∀ d, nextStatementDate pat d = addDays d (jsToInteger pat.typicalCycleLength) :=
    fun d => by simp [nextStatementDate, hnull]
  have hE : ∀ (i : ℕ) (p : BillingCycleProjection),
      (projectFutureCycles c pat monthsAhead)[i]? = some p →
      p.confidence = pat.confidence * (1 - (i : ℚ) * 0.05) := by
    intro i p hp
    unfold projectFutureCycles at hp
    have := projectLoop_confidence pat _ _ 0 i p hp
    simpa using this
  refine ⟨?_, ?_, ?_, ?_, hE, ?_⟩
  · exact projectLoop_length pat _ _ _
  · intro p hp
    unfold projectFutureCycles at hp
    cases hN : monthsAhead.toNat with
    | zero => rw [hN] at hp; simp [projectLoop] at hp
    | succ n =>
      rw [hN, projectLoop_getElem_zero] at hp
      obtain rfl := (Option.some_inj.mp hp).symm
      exact hnext c.statementDate
  · intro i p q hp hq
    unfold projectFutureCycles at hp hq
    have h := projectLoop_chain pat _ _ _ i p q hp hq
    exact ⟨by rw [h.1, hnext], h.2⟩
  · intro p hp
    unfold projectFutureCycles at hp
    exact projectLoop_due pat _ _ _ p hp
  · intro hpos i p hp
    have hconf := hE i p hp
    constructor
    · intro h20
      rw [hconf]
      have h20q : (20 : ℚ) ≤ (i : ℚ) := by exact_mod_cast h20
      nlinarith
    · intro h21
      rw [hconf]
      have h21q : (21 : ℚ) ≤ (i : ℚ) := by exact_mod_cast h21
      have hneg : (1 : ℚ) - (i : ℚ) * 0.05 < 0 := by nlinarith
      exact mul_neg_of_pos_of_neg hpos hneg

/-- C1 counterexample: with pattern confidence 0.9 > 0 and 21 months
projected, the 0-based projection index 20 (which the claim covers with
"negative for i ≥ 20") has confidence exactly 0, not negative. -/
theorem c1_counterexample :
    ∃ p, (projectFutureCycles ⟨⟨2024, 1, 15⟩, ⟨2024, 2, 5⟩, none⟩
        ⟨30, none, 21, 0.9⟩ 21)[20]? = some p ∧
      (0 : ℚ) < 0.9 ∧ p.confidence = 0 ∧ ¬ p.confidence < 0 := by
  have hlen : (projectFutureCycles ⟨⟨2024, 1, 15⟩, ⟨2024, 2, 5⟩, none⟩
      ⟨30, none, 21, 0.9⟩ 21).length = 21 := projectLoop_length _ _ _ _
  have hsome : ∃ p, (projectFutureCycles ⟨⟨2024, 1, 15⟩, ⟨2024, 2, 5⟩, none⟩
      ⟨30, none, 21, 0.9⟩ 21)[20]? = some p := by
    rw [List.getElem?_eq_getElem (by omega)]
    exact ⟨_, rfl⟩
  obtain ⟨p, hp⟩ := hsome
  have hconf : p.confidence = (0.9 : ℚ) * (1 - (20 : ℚ) * 0.05) := by
    have := projectLoop_confidence ⟨30, none, 21, 0.9⟩ _ _ 0 20 p hp
    simpa using this
  have hzero : p.confidence = 0 := by rw [hconf]; norm_num
  exact ⟨p, hp, by norm_num, hzero, by rw [hzero]; exact lt_irrefl 0⟩

set_option maxRecDepth 8000 in
/-- Witness for C1 at the spec's concrete scenario: pattern
`{30, null, 21, 0.9}`, last statement 2024-01-15, three months ahead;
the statement dates land on 2024-02-14, 2024-03-15, 2024-04-14 and the
due dates 21 days later, with confidences 0.9, 0.855, 0.81. -/
theorem c1_witness :
    ((⟨30, none, 21, 0.9⟩ : BillingCyclePattern).statementDayOfMonth = none ∧ (0 : ℤ) ≤ 3) ∧
    NullDayProjectionSpec ⟨⟨2024, 1, 15⟩, ⟨2024, 2, 5⟩, none⟩ ⟨30, none, 21, 0.9⟩ 3 ∧
    (projectFutureCycles ⟨⟨2024, 1, 15⟩, ⟨2024, 2, 5⟩, none⟩ ⟨30, none, 21, 0.9⟩ 3).map
        (fun p => p.cycleEndDate) = [⟨2024, 2, 14⟩, ⟨2024, 3, 15⟩, ⟨2024, 4, 14⟩] ∧
    (projectFutureCycles ⟨⟨2024, 1, 15⟩, ⟨2024, 2, 5⟩, none⟩ ⟨30, none, 21, 0.9⟩ 3).map
        (fun p => p.paymentDueDate) = [⟨2024, 3, 6⟩, ⟨2024, 4, 5⟩, ⟨2024, 5, 5⟩] ∧
    (0.9 : ℚ) * (1 - (1 : ℚ) * 0.05) = 0.855 ∧ (0.9 : ℚ) * (1 - (2 : ℚ) * 0.05) = 0.81 :=
  ⟨⟨rfl, by decide⟩,
    projectFutureCycles_nullDay_spec ⟨⟨2024, 1, 15⟩, ⟨2024, 2, 5⟩, none⟩
      ⟨30, none, 21, 0.9⟩ 3 rfl (by decide),
    by decide, by decide, by norm_num, by norm_num⟩

-- ==================== CLAIM C5 ====================

/-- C5: for every well-formed pattern (typical cycle length at least 2,
due-date offset at least 1, and on the statement-day path a target day
of at least 1 whose next statement date falls strictly after the cycle
start) and every `monthsAhead ≥ 1`, each projection satisfies
`cycleStartDate < cycleEndDate < paymentDueDate`, and each later
projection's cycle start is exactly one day after the previous
projection's cycle end. -/
theorem projectFutureCycles_wellFormed (c : HistoricalCycle) (pat : BillingCyclePattern)
    (monthsAhead : ℤ) (hv : ValidDate c.statementDate)
    (hlen : 2 ≤ pat.typicalCycleLength) (hoff : 1 ≤ pat.dueDateOffset)
    (hday : ∀ t, pat.statementDayOfMonth = some t →
      1 ≤ t ∧ ∀ d, ValidDate d → dateLt (addDays d 1) (nextStatementDate pat d))
    (_hm : 1 ≤ monthsAhead) :
    ProjectionInvariants (projectFutureCycles c pat monthsAhead) := by
  have hlenInt : 2 ≤ jsToInteger pat.typicalCycleLength := by
    unfold jsToInteger
    rw [if_pos (le_trans (by norm_num : (0 : ℚ) ≤ 2) hlen)]
    exact Int.le_floor.mpr (by exact_mod_cast hlen)
  have hoffInt : 1 ≤ jsToInteger pat.dueDateOffset := by
    unfold jsToInteger
    rw [if_pos (le_trans (by norm_num : (0 : ℚ) ≤ 1) hoff)]
    exact Int.le_floor.mpr (by exact_mod_cast hoff)
  have hnext : ∀ d, ValidDate d →
      ValidDate (nextStatementDate pat d) ∧ dateLt (addDays d 1) (nextStatementDate pat d) := by
    intro d hd
    cases hsd : pat.statementDayOfMonth with
    | none =>
      have hn : nextStatementDate pat d = addDays d (jsToInteger pat.typicalCycleLength) := by
        simp [nextStatementDate, hsd]
      rw [hn]
      obtain ⟨hnum, hval⟩ :=
        toDayNumber_addDays d hd (jsToInteger pat.typicalCycleLength) (by omega)
      obtain ⟨hnum1, -⟩ := toDayNumber_addDays d hd 1 (by norm_num)
      refine ⟨hval, ?_⟩
      unfold dateLt
      rw [hnum, hnum1]
      omega
    | some t =>
      obtain ⟨ht1, hlt⟩ := hday t hsd
      refine ⟨?_, hlt d hd⟩
      have hn : nextStatementDate pat d = adjustForMonthEnd (addMonths1 d) t := by
        simp [nextStatementDate, hsd]
      rw [hn]
      exact validDate_adjustForMonthEnd _ t (validDate_addMonths1 d hd) ht1
  refine ⟨?_, ?_⟩
  · intro p hp
    unfold projectFutureCycles at hp
    exact projectLoop_wf pat hnext hoffInt _ _ _ hv p hp
  · intro i p q hp hq
    unfold projectFutureCycles at hp hq
    exact (projectLoop_chain pat _ _ _ i p q hp hq).2

/-- Witness for C5 at the concrete pattern `{30, null, 21, 0.9}` from
statement date 2024-01-15, three months ahead. -/
theorem c5_witness :
    (ValidDate (⟨2024, 1, 15⟩ : Date) ∧ 2 ≤ (30 : ℚ) ∧ 1 ≤ (21 : ℚ) ∧ 1 ≤ (3 : ℤ)) ∧
    ProjectionInvariants
      (projectFutureCycles ⟨⟨2024, 1, 15⟩, ⟨2024, 2, 5⟩, none⟩ ⟨30, none, 21, 0.9⟩ 3) :=
  ⟨⟨by decide, by decide, by decide, by decide⟩,
    projectFutureCycles_wellFormed ⟨⟨2024, 1, 15⟩, ⟨2024, 2, 5⟩, none⟩ ⟨30, none, 21, 0.9⟩ 3
      (by decide) (by decide) (by decide) (fun t ht => Option.noConfusion ht) (by decide)⟩

-- ==================== CLAIM C9 ====================

/-- C9: `assignTransactionToCycle` returns the first cycle in the given
order whose closed interval `[cycleStartDate, cycleEndDate]` contains
the transaction date (inclusive on both endpoints), and `none` when no
cycle contains it; concretely, for a cycle spanning 2024-02-01 to
2024-02-29 both endpoints are assigned to it and 2024-03-01 is not. -/
theorem assignTransactionToCycle_spec :
    (∀ (d : Date) (cycles : List BillingCycleProjection) (c : BillingCycleProjection),
        assignTransactionToCycle d cycles = some c →
        ∃ l1 l2, cycles = l1 ++ c :: l2 ∧ inCycle d c = true ∧
          ∀ c2 ∈ l1, inCycle d c2 = false) ∧
    (∀ (d : Date) (cycles : List BillingCycleProjection),
        assignTransactionToCycle d cycles = none ↔ ∀ c ∈ cycles, inCycle d c = false) ∧
    assignTransactionToCycle ⟨2024, 2, 1⟩
        [⟨⟨2024, 2, 1⟩, ⟨2024, 2, 29⟩, ⟨2024, 3, 21⟩, true, 0.9⟩] =
      some ⟨⟨2024, 2, 1⟩, ⟨2024, 2, 29⟩, ⟨2024, 3, 21⟩, true, 0.9⟩ ∧
    assignTransactionToCycle ⟨2024, 2, 29⟩
        [⟨⟨2024, 2, 1⟩, ⟨2024, 2, 29⟩, ⟨2024, 3, 21⟩, true, 0.9⟩] =
      some ⟨⟨2024, 2, 1⟩, ⟨2024, 2, 29⟩, ⟨2024, 3, 21⟩, true, 0.9⟩ ∧
    assignTransactionToCycle ⟨2024, 3, 1⟩
        [⟨⟨2024, 2, 1⟩, ⟨2024, 2, 29⟩, ⟨2024, 3, 21⟩, true, 0.9⟩] = none := by
  refine ⟨?_, ?_, rfl, rfl, rfl⟩
  · intro d cycles
    induction cycles with
    | nil => intro c hc; simp [assignTransactionToCycle] at hc
    | cons x rest ih =>
      intro c hc
      simp only [assignTransactionToCycle] at hc
      by_cases hx : inCycle d x = true
      · rw [if_pos hx] at hc
        obtain rfl := Option.some_inj.mp hc
        exact ⟨[], rest, rfl, hx, fun c2 hc2 => absurd hc2 (List.not_mem_nil c2)⟩
      · rw [if_neg hx] at hc
        obtain ⟨l1, l2, heq, hcC, hall⟩ := ih c hc
        refine ⟨x :: l1, l2, by rw [heq]; rfl, hcC, ?_⟩
        intro c2 hc2
        rcases List.mem_cons.mp hc2 with rfl | hc2
        · simpa using hx
        · exact hall c2 hc2
  · intro d cycles
    induction cycles with
    | nil => simp [assignTransactionToCycle]
    | cons x rest ih =>
      simp only [assignTransactionToCycle]
      by_cases hx : inCycle d x = true
      · rw [if_pos hx]
        simp [hx]
      · rw [if_neg hx]
        rw [ih]
        have hx2 : inCycle d x = false := by simpa using hx
        simp [List.forall_mem_cons, hx2]

/-- Witness for C9: the first-match characterization applied to a
mid-cycle date in a one-cycle list. -/
theorem assignTransactionToCycle_spec_witness :
    ∃ l1 l2, ([⟨⟨2024, 2, 1⟩, ⟨2024, 2, 29⟩, ⟨2024, 3, 21⟩, true, 0.9⟩] :
        List BillingCycleProjection) =
        l1 ++ ⟨⟨2024, 2, 1⟩, ⟨2024, 2, 29⟩, ⟨2024, 3, 21⟩, true, 0.9⟩ :: l2 ∧
      inCycle ⟨2024, 2, 15⟩ ⟨⟨2024, 2, 1⟩, ⟨2024, 2, 29⟩, ⟨2024, 3, 21⟩, true, 0.9⟩ = true ∧
      ∀ c2 ∈ l1, inCycle ⟨2024, 2, 15⟩ c2 = false :=
  assignTransactionToCycle_spec.1 ⟨2024, 2, 15⟩
    [⟨⟨2024, 2, 1⟩, ⟨2024, 2, 29⟩, ⟨2024, 3, 21⟩, true, 0.9⟩]
    ⟨⟨2024, 2, 1⟩, ⟨2024, 2, 29⟩, ⟨2024, 3, 21⟩, true, 0.9⟩ rfl

-- ==================== CLAIM C2 ====================

/-- C2 (amended): for every history of at least 2 cycles, the analyzer
sets `typicalCycleLength` from `calculateMode` of the consecutive
day-differences of the sorted history, which always returns a value (the
smallest difference attaining the maximal frequency, hence the smallest
difference outright when all differences are distinct -- not the
median); the median is used only when that mode value is 0 (JavaScript
`||` falsiness). -/
theorem analyze_typicalCycleLength_spec (h : List HistoricalCycle) (hlen : 2 ≤ h.length) :
    ∃ m : ℤ, calculateMode (cycleLengthsOf h) = some m ∧ m ∈ cycleLengthsOf h ∧
      (∀ k ∈ cycleLengthsOf h, (cycleLengthsOf h).count k ≤ (cycleLengthsOf h).count m) ∧
      (∀ k ∈ cycleLengthsOf h,
        (cycleLengthsOf h).count k = (cycleLengthsOf h).count m → m ≤ k) ∧
      (analyzeBillingCyclePattern h).pattern.typicalCycleLength =
        (if m = 0 then calculateMedian (cycleLengthsOf h) else (m : ℚ)) ∧
      ((cycleLengthsOf h).Nodup → ∀ k ∈ cycleLengthsOf h, m ≤ k) := by
  obtain ⟨m, hmode, hmem, hbound, hmin⟩ :=
    calculateMode_spec (cycleLengthsOf h) (cycleLengthsOf_ne_nil h hlen)
      (cycleLengthsOf_nonneg h)
  refine ⟨m, hmode, hmem, hbound, hmin, ?_, ?_⟩
  · unfold analyzeBillingCyclePattern
    rw [if_neg (by omega)]
    show typicalCycleLengthOf h = _
    unfold typicalCycleLengthOf
    rw [hmode]
  · intro hnodup k hk
    exact hmin k hk
      (by rw [List.count_eq_one_of_mem hnodup hk, List.count_eq_one_of_mem hnodup hmem])

/-- C2 counterexample: on a history with pairwise distinct differences
29, 30, 31 the analyzer picks 29 (the smallest difference, because
`calculateMode` never returns `null` on a non-empty list), not the
median 30 that the claim's fallback clause asserts. -/
theorem c2_counterexample :
    cycleLengthsOf distinctDiffsHistory = [29, 30, 31] ∧
    (analyzeBillingCyclePattern distinctDiffsHistory).pattern.typicalCycleLength = 29 ∧
    calculateMedian (cycleLengthsOf distinctDiffsHistory) = 30 ∧ (29 : ℚ) ≠ 30 := by
  refine ⟨by decide, ?_, ?_, by norm_num⟩
  · unfold analyzeBillingCyclePattern
    rw [if_neg (by decide)]
    dsimp only
    unfold typicalCycleLengthOf
    rw [show calculateMode (cycleLengthsOf distinctDiffsHistory) = some 29 from by decide]
    norm_num
  · rw [show cycleLengthsOf distinctDiffsHistory = [29, 30, 31] from by decide]
    unfold calculateMedian
    rw [if_neg (by decide)]
    norm_num [sortInts, List.insertionSort, List.orderedInsert]

/-- Witness for C2 on the distinct-differences history. -/
theorem c2_witness :
    2 ≤ distinctDiffsHistory.length ∧
    (∃ m : ℤ, calculateMode (cycleLengthsOf distinctDiffsHistory) = some m ∧
      m ∈ cycleLengthsOf distinctDiffsHistory ∧
      (∀ k ∈ cycleLengthsOf distinctDiffsHistory,
        (cycleLengthsOf distinctDiffsHistory).count k ≤
          (cycleLengthsOf distinctDiffsHistory).count m) ∧
      (∀ k ∈ cycleLengthsOf distinctDiffsHistory,
        (cycleLengthsOf distinctDiffsHistory).count k =
          (cycleLengthsOf distinctDiffsHistory).count m → m ≤ k) ∧
      (analyzeBillingCyclePattern distinctDiffsHistory).pattern.typicalCycleLength =
        (if m = 0 then calculateMedian (cycleLengthsOf distinctDiffsHistory) else (m : ℚ)) ∧
      ((cycleLengthsOf distinctDiffsHistory).Nodup →
        ∀ k ∈ cycleLengthsOf distinctDiffsHistory, m ≤ k)) :=
  ⟨by decide, analyze_typicalCycleLength_spec distinctDiffsHistory (by decide)⟩

-- ==================== CLAIM C4 ====================

/-- C4 (amended): the analyzer's confidence is monotone in history
length provided none of the three consistency tests (cycle length,
statement day, due-date offset) flips from passing to failing between
the shorter and the longer history; extending a history can lower
confidence when an added cycle breaks a consistency test (see the
counterexample). -/
theorem analyze_confidence_monotone (A B : List HistoricalCycle)
    (hlen : A.length ≤ B.length)
    (hflags : 2 ≤ A.length →
      ((isConsistentLengthOf A = true → isConsistentLengthOf B = true) ∧
       (isConsistentDayOf A = true → isConsistentDayOf B = true) ∧
       (isConsistentOffsetOf A = true → isConsistentOffsetOf B = true))) :
    (analyzeBillingCyclePattern A).pattern.confidence ≤
      (analyzeBillingCyclePattern B).pattern.confidence := by
  by_cases hA : A.length < 2
  · by_cases hB : B.length < 2
    · unfold analyzeBillingCyclePattern
      rw [if_pos hA, if_pos hB]
    · unfold analyzeBillingCyclePattern
      rw [if_pos hA, if_neg hB]
      show (0.3 : ℚ) ≤ confidenceOf B
      unfold confidenceOf
      refine le_min ?_ (by norm_num)
      split_ifs <;> norm_num
  · have hB : ¬ B.length < 2 := by omega
    unfold analyzeBillingCyclePattern
    rw [if_neg hA, if_neg hB]
    show confidenceOf A ≤ confidenceOf B
    obtain ⟨hfL, hfD, hfO⟩ := hflags (by omega)
    unfold confidenceOf
    refine min_le_min ?_ (le_refl 1)
    have hq : (if 6 ≤ A.length then (0.2 : ℚ) else if 3 ≤ A.length then 0.1 else 0)
        ≤ (if 6 ≤ B.length then (0.2 : ℚ) else if 3 ≤ B.length then 0.1 else 0) := by
      split_ifs <;> first | (exfalso; omega) | norm_num
    have hL : (if isConsistentLengthOf A then (0.15 : ℚ) else 0)
        ≤ (if isConsistentLengthOf B then (0.15 : ℚ) else 0) := by
      by_cases hA1 : isConsistentLengthOf A = true
      · rw [if_pos hA1, if_pos (hfL hA1)]
      · rw [if_neg hA1]
        split_ifs <;> norm_num
    have hD : (if isConsistentDayOf A then (0.1 : ℚ) else 0)
        ≤ (if isConsistentDayOf B then (0.1 : ℚ) else 0) := by
      by_cases hA1 : isConsistentDayOf A = true
      · rw [if_pos hA1, if_pos (hfD hA1)]
      · rw [if_neg hA1]
        split_ifs <;> norm_num
    have hO : (if isConsistentOffsetOf A then (0.05 : ℚ) else 0)
        ≤ (if isConsistentOffsetOf B then (0.05 : ℚ) else 0) := by
      by_cases hA1 : isConsistentOffsetOf A = true
      · rw [if_pos hA1, if_pos (hfO hA1)]
      · rw [if_neg hA1]
        split_ifs <;> norm_num
    exact add_le_add (add_le_add (add_le_add (add_le_add (le_refl (0.5 : ℚ)) hq) hL) hD) hO

/-- C4 counterexample: `extendedHistory` extends `shortHistory` by one
cycle drawn from the same account (a sub-history differing only in
length), yet its confidence 0.65 is strictly below the shorter
history's confidence 0.7 -- the added cycle raises the cycle-length
variance to 4, which fails the variance-below-4 consistency test and
costs more than the extra-data bonus gains. -/
theorem c4_counterexample :
    (analyzeBillingCyclePattern extendedHistory).pattern.confidence <
      (analyzeBillingCyclePattern shortHistory).pattern.confidence := by
  have hlenA : cycleLengthsOf shortHistory = [28] := by decide
  have hlenB : cycleLengthsOf extendedHistory = [28, 32] := by decide
  have hoffA : dueDateOffsetsOf shortHistory = [21, 21] := by decide
  have hoffB : dueDateOffsetsOf extendedHistory = [21, 21, 21] := by decide
  have hLA : isConsistentLengthOf shortHistory = true := by
    unfold isConsistentLengthOf
    rw [hlenA]
    apply decide_eq_true
    unfold calculateVariance
    rw [if_neg (by simp)]
    norm_num [List.map_cons, List.map_nil, List.sum_cons, List.sum_nil,
      List.length_cons, List.length_nil]
  have hLB : isConsistentLengthOf extendedHistory = false := by
    unfold isConsistentLengthOf
    rw [hlenB]
    apply decide_eq_false
    unfold calculateVariance
    rw [if_neg (by simp)]
    norm_num [List.map_cons, List.map_nil, List.sum_cons, List.sum_nil,
      List.length_cons, List.length_nil]
  have hDA : isConsistentDayOf shortHistory = false := by decide
  have hDB : isConsistentDayOf extendedHistory = false := by decide
  have hOA : isConsistentOffsetOf shortHistory = true := by
    unfold isConsistentOffsetOf
    rw [hoffA]
    apply decide_eq_true
    unfold calculateVariance
    rw [if_neg (by simp)]
    norm_num [List.map_cons, List.map_nil, List.sum_cons, List.sum_nil,
      List.length_cons, List.length_nil]
  have hOB : isConsistentOffsetOf extendedHistory = true := by
    unfold isConsistentOffsetOf
    rw [hoffB]
    apply decide_eq_true
    unfold calculateVariance
    rw [if_neg (by simp)]
    norm_num [List.map_cons, List.map_nil, List.sum_cons, List.sum_nil,
      List.length_cons, List.length_nil]
  unfold analyzeBillingCyclePattern
  rw [if_neg (by decide), if_neg (by decide)]
  dsimp only
  unfold confidenceOf
  rw [hLA, hLB, hDA, hDB, hOA, hOB]
  norm_num [shortHistory, extendedHistory, min_def]

/-- Witness for C4 on the main analyzer path: the steady two-cycle
history (confidence 0.7) against its three-cycle on-pattern extension
(confidence 0.8); the cycle-length and due-date-offset consistency
tests pass on both histories, so the no-flip proviso holds
non-vacuously and the confidence grows with the extra cycle. -/
theorem c4_witness :
    steadyHistory.length ≤ steadyHistoryPlus.length ∧
    (2 ≤ steadyHistory.length →
      ((isConsistentLengthOf steadyHistory = true →
          isConsistentLengthOf steadyHistoryPlus = true) ∧
       (isConsistentDayOf steadyHistory = true →
          isConsistentDayOf steadyHistoryPlus = true) ∧
       (isConsistentOffsetOf steadyHistory = true →
          isConsistentOffsetOf steadyHistoryPlus = true))) ∧
    (analyzeBillingCyclePattern steadyHistory).pattern.confidence ≤
      (analyzeBillingCyclePattern steadyHistoryPlus).pattern.confidence := by
  have hLB : isConsistentLengthOf steadyHistoryPlus = true := by
    unfold isConsistentLengthOf
    rw [show cycleLengthsOf steadyHistoryPlus = [30, 30] from by decide]
    apply decide_eq_true
    unfold calculateVariance
    rw [if_neg (by simp)]
    norm_num [List.map_cons, List.map_nil, List.sum_cons, List.sum_nil,
      List.length_cons, List.length_nil]
  have hOB : isConsistentOffsetOf steadyHistoryPlus = true := by
    unfold isConsistentOffsetOf
    rw [show dueDateOffsetsOf steadyHistoryPlus = [21, 21, 21] from by decide]
    apply decide_eq_true
    unfold calculateVariance
    rw [if_neg (by simp)]
    norm_num [List.map_cons, List.map_nil, List.sum_cons, List.sum_nil,
      List.length_cons, List.length_nil]
  have hflags : 2 ≤ steadyHistory.length →
      ((isConsistentLengthOf steadyHistory = true →
          isConsistentLengthOf steadyHistoryPlus = true) ∧
       (isConsistentDayOf steadyHistory = true →
          isConsistentDayOf steadyHistoryPlus = true) ∧
       (isConsistentOffsetOf steadyHistory = true →
          isConsistentOffsetOf steadyHistoryPlus = true)) :=
    fun _ => ⟨fun _ => hLB, fun hd => absurd hd (by decide), fun _ => hOB⟩
  exact ⟨by decide, hflags,
    analyze_confidence_monotone steadyHistory steadyHistoryPlus (by decide) hflags⟩
